import Mathlib

/-!
Verification development for the trainingrun-site Aggregation & Scoring Engine.

Shallow embedding of the Python sources into Lean 4:
* `model_names.py` — entity-name resolution (`canonicalize`, `match_name`);
* `agent_trs.py` — the TRSbench pipeline (`normalize_across_models`,
  `calculate_composite`, `auto_discover_models`, the `main` scoring run, and
  `generate_checksum`);
* `agent_truscore.py` — the TRUscore normalizer (`normalize_across_models`
  with an inverted "lower is better" mode);
* `fix_integrity.py` — the independent checksum reader
  (`calculate_trainingrun_checksum`).

Python floats are embedded as exact rationals (`ℚ`); `round` is embedded as
exact round-half-to-even on rationals, which agrees with CPython on every
value used in the theorems below (all chosen away from representation-induced
ties).  Python dicts are embedded as association lists built with
replace-or-append insertion (`dinsert`), which models insertion-order dict
semantics exactly.  Strings are ASCII in every input considered here, so
`Char`-level operations model Python `str` operations faithfully.
-/

namespace TrainingRun

/-! ## Python `round` on exact rationals -/

/-- Nearest integer to a rational, ties to even — the rounding CPython's
`round` and `%.1f` formatting perform on the exact value of a float. -/
def rnd (q : ℚ) : ℤ :=
  let f := Rat.floor q
  let r := q - f
  if r < 1/2 then f
  else if 1/2 < r then f + 1
  else if f % 2 = 0 then f else f + 1

/-- Python `round(q, d)` on the exact-rational embedding of a float. -/
def pyRound (d : ℕ) (q : ℚ) : ℚ := (rnd (q * 10 ^ d) : ℚ) / 10 ^ d

/-! ## Association-list dictionaries (Python `dict`) -/

/-- Python `d.get(k)` / `d[k]`: first binding of `k` (keys are unique in a
real dict, so first-match lookup is exact). -/
def alookup {α : Type} (d : List (String × α)) (k : String) : Option α :=
  (d.find? (fun kv => kv.1 == k)).map (·.2)

/-- Python `d[k] = v`: replace the value in place if the key exists
(keeping its position), else append the new binding. -/
def dinsert {α : Type} (d : List (String × α)) (k : String) (v : α) :
    List (String × α) :=
  if d.any (fun kv => kv.1 == k) then
    d.map (fun kv => if kv.1 == k then (k, v) else kv)
  else d ++ [(k, v)]

/-- Python dict comprehension over a key/value sequence (later duplicate keys
overwrite earlier ones, first position kept). -/
def pyDict {α : Type} (ps : List (String × α)) : List (String × α) :=
  ps.foldl (fun d kv => dinsert d kv.1 kv.2) []

/-- Maximum of a list of rationals (`max()` of a nonempty collection;
`0` only for the empty list, which every caller guards against). -/
def listMax : List ℚ → ℚ
  | [] => 0
  | x :: xs => xs.foldl max x

/-- Minimum of a list of rationals (`min()` of a nonempty collection). -/
def listMin : List ℚ → ℚ
  | [] => 0
  | x :: xs => xs.foldl min x

/-! ## Character and string helpers (Python `str` operations, ASCII scope) -/

/-- Python `s.lower()` (ASCII letters; every name in scope is ASCII). -/
def slower (s : String) : String := String.mk (s.data.map Char.toLower)

/-- Python `s.startswith(p)` (character-list based so that it reduces in the
kernel). -/
def strPrefixOf (p s : String) : Bool := p.data.isPrefixOf s.data

/-- Stable insertion of `x` into a list sorted by the total preorder `le`:
`x` goes before the first element it `le`-precedes. -/
def insertSorted {α : Type} (le : α → α → Bool) (x : α) : List α → List α
  | [] => [x]
  | y :: t => if le x y then x :: y :: t else y :: insertSorted le x t

/-- Sorting by a boolean total preorder; with a total order this computes the
same list as Python's (stable) `sorted`. -/
def sortByLe {α : Type} (le : α → α → Bool) (l : List α) : List α :=
  l.foldr (insertSorted le) []

/-- Codepoint-lexicographic strict comparison of strings, the order Python
uses to compare `str` values. -/
def strLtChars : List Char → List Char → Bool
  | [], [] => false
  | [], _ :: _ => true
  | _ :: _, [] => false
  | x :: xs, y :: ys => if x < y then true else if y < x then false else strLtChars xs ys

/-- Python `a <= b` on strings. -/
def strLe (a b : String) : Bool := !(strLtChars b.data a.data)

/-- Python `needle in hay` (substring containment). -/
def infixOf (needle hay : List Char) : Bool :=
  needle.isPrefixOf hay ||
    match hay with
    | [] => false
    | _ :: t => infixOf needle t

/-- Python `s.split()` — split on runs of whitespace, no empty tokens. -/
def pyWordsAux : List Char → List Char → List String
  | [], acc => if acc.isEmpty then [] else [String.mk acc.reverse]
  | c :: t, acc =>
    if c.isWhitespace then
      if acc.isEmpty then pyWordsAux t [] else String.mk acc.reverse :: pyWordsAux t []
    else pyWordsAux t (c :: acc)

/-- Python `s.split()` on a string. -/
def pyWords (s : String) : List String := pyWordsAux s.data []

/-- Python `s.strip()` (whitespace at both ends). -/
def pyStrip (l : List Char) : List Char :=
  ((l.dropWhile Char.isWhitespace).reverse.dropWhile Char.isWhitespace).reverse

/-- Python `s.strip()` on a string. -/
def pyStripStr (s : String) : String := String.mk (pyStrip s.data)

/-- Python `str.isdigit()` for ASCII: nonempty and all digit characters. -/
def pyIsDigit (l : List Char) : Bool := !l.isEmpty && l.all Char.isDigit


/-! ## `model_names.py` — canonical roster, aliases, resolver -/

/-- `CANONICAL_ROSTER` from `model_names.py`: authoritative display names. -/
def CANONICAL_ROSTER : List String := [
  "Claude Opus 4.6",
  "Claude Opus 4.5",
  "Claude Opus 4.1",
  "Claude Sonnet 4.6",
  "Claude Sonnet 4.5",
  "Claude Code",
  "Claude 3 Haiku",
  "Claude 2.1",
  "GPT-5.2",
  "GPT-5.1",
  "GPT-5",
  "GPT-5 mini",
  "GPT-4",
  "GPT-4o",
  "GPT-4.5",
  "GPT-3.5 Turbo",
  "O3",
  "o3-mini",
  "o4-mini",
  "o1-preview",
  "o1-mini",
  "gpt-oss-120b",
  "Gemini 3 Pro",
  "Gemini 3 Flash",
  "Gemini 2.5 Pro",
  "Gemini Flash 3",
  "Gemma 3 12B",
  "Palmyra X5",
  "Palmyra-X-004",
  "Palmyra Fin",
  "Palmyra Med",
  "Grok 4.20",
  "Grok 4.1",
  "Grok 3 Beta",
  "DeepSeek V3.2",
  "DeepSeek V3.1",
  "DeepSeek-V3",
  "DeepSeek R1",
  "DeepSeek LLM Chat",
  "GLM-5",
  "GLM-4",
  "Llama 4.08B",
  "Llama 4.05B",
  "Llama 4.0",
  "Llama 4 Maverick",
  "Llama 3.1 Instruct Turbo",
  "Mistral Large 3",
  "Mistral Large",
  "Mistral Voxtral",
  "Devstral 2",
  "Mixtral Instruct",
  "Mistral Instruct v0.3",
  "Qwen3-Coder",
  "Qwen3",
  "Qwen2.5",
  "Qwen2 Instruct",
  "Qwen1.5 Chat",
  "qwq-32b",
  "MiniMax M2.5",
  "MiniMax M2",
  "MiniMax M1",
  "Kimi K2.5",
  "Kimi K2 Instruct",
  "Cohere Command R+",
  "Command R Plus",
  "Cohere Aya",
  "intellect-3",
  "BLACKBOXAI",
  "INTELLECT-3",
  "K-EXAONE",
  "NVARC",
  "IBM Granite 3.3 8B Instruct",
  "Amazon Nova Lite",
  "Gemma 3 12B"]


/-- `ALIASES` from `model_names.py` in literal order.  The Python dict literal
contains a few duplicate keys whose values coincide, so first-match lookup on
this list computes exactly the dict lookup. -/
def ALIASES : List (String × String) := [
  ("opus 4.6", "Claude Opus 4.6"),
  ("opus 4.5", "Claude Opus 4.5"),
  ("opus 4.1", "Claude Opus 4.1"),
  ("sonnet 4.6", "Claude Sonnet 4.6"),
  ("sonnet 4.5", "Claude Sonnet 4.5"),
  ("haiku 4.5", "Claude 3 Haiku"),
  ("claude-opus-4-6", "Claude Opus 4.6"),
  ("claude-opus-4-5", "Claude Opus 4.5"),
  ("claude-sonnet-4-6", "Claude Sonnet 4.6"),
  ("claude-sonnet-4-5", "Claude Sonnet 4.5"),
  ("claude-haiku-4-5-20251001 (zero shot)", "Claude 3 Haiku"),
  ("claude-haiku-4-5-20251001", "Claude 3 Haiku"),
  ("claude-haiku-4.5-20251001", "Claude 3 Haiku"),
  ("gpt 5.2", "GPT-5.2"),
  ("gpt5.2", "GPT-5.2"),
  ("gpt 5.1", "GPT-5.1"),
  ("gpt5.1", "GPT-5.1"),
  ("gpt 5 mini", "GPT-5 mini"),
  ("gpt-5 mini", "GPT-5 mini"),
  ("gpt5 mini", "GPT-5 mini"),
  ("gpt 5.2 codex", "GPT-5.2"),
  ("gpt-5.2 codex", "GPT-5.2"),
  ("gpt-5-codex", "GPT-5.2"),
  ("chatgpt-4o-latest", "GPT-4o"),
  ("gpt-4o-2024-11-20", "GPT-4o"),
  ("gpt-4.5-preview-2025-02-27 (scratchpad)", "GPT-4.5"),
  ("gpt-4.5-preview", "GPT-4.5"),
  ("gpt-4.1 (2025-04-14)", "GPT-4"),
  ("gpt-4 turbo", "GPT-4"),
  ("gpt-4-turbo", "GPT-4"),
  ("gpt 4.1 mini", "GPT-4"),
  ("gpt-4.1 mini", "GPT-4"),
  ("gpt-oss-120b", "gpt-oss-120b"),
  ("gpt oss 120b", "gpt-oss-120b"),
  ("gpt-oss-120b (2506)", "gpt-oss-120b"),
  ("gpt oss 120b (2506)", "gpt-oss-120b"),
  ("o3", "O3"),
  ("openai o3", "O3"),
  ("openai-o3", "O3"),
  ("o3 mini", "o3-mini"),
  ("openai o3-mini", "o3-mini"),
  ("o4 mini", "o4-mini"),
  ("openai o4-mini", "o4-mini"),
  ("openai o1 mini", "o1-mini"),
  ("openai o1-mini", "o1-mini"),
  ("openai o1 preview", "o1-preview"),
  ("openai o1-preview", "o1-preview"),
  ("gemini-3-pro", "Gemini 3 Pro"),
  ("gemini-3-flash", "Gemini 3 Flash"),
  ("gemini-2.5-pro", "Gemini 2.5 Pro"),
  ("gemini-flash-3", "Gemini Flash 3"),
  ("gemini flash 3.0", "Gemini Flash 3"),
  ("gemini-3.0-flash", "Gemini Flash 3"),
  ("grok-4", "Grok 4.20"),
  ("grok 4", "Grok 4.20"),
  ("grok4", "Grok 4.20"),
  ("grok-4.20", "Grok 4.20"),
  ("grok 4.1", "Grok 4.1"),
  ("grok 3", "Grok 3 Beta"),
  ("grok-3", "Grok 3 Beta"),
  ("grok3", "Grok 3 Beta"),
  ("grok-3-beta", "Grok 3 Beta"),
  ("deepseek-v3", "DeepSeek-V3"),
  ("deepseek v3", "DeepSeek-V3"),
  ("deepseekv3", "DeepSeek-V3"),
  ("deepseek-r1 (scratchpad)", "DeepSeek R1"),
  ("deepseek-r1", "DeepSeek R1"),
  ("deepseek r1", "DeepSeek R1"),
  ("deepseek-r1-zero", "DeepSeek R1"),
  ("qwen3-max", "Qwen3"),
  ("qwen 3", "Qwen3"),
  ("qwen3 30b a3b", "Qwen3"),
  ("qwen3-coder 480b/a35b instruct", "Qwen3-Coder"),
  ("qwq-32b", "qwq-32b"),
  ("qwq 32b", "qwq-32b"),
  ("minimax m1 40k", "MiniMax M1"),
  ("minimax-m1-40k", "MiniMax M1"),
  ("kimi-k2-thinking", "Kimi K2.5"),
  ("kimi k2 thinking", "Kimi K2.5"),
  ("kimi k2.5", "Kimi K2.5"),
  ("kimi-k2.5", "Kimi K2.5"),
  ("devstral (2512)", "Devstral 2"),
  ("devstral", "Devstral 2"),
  ("mistral-large", "Mistral Large"),
  ("command r+", "Cohere Command R+"),
  ("command-r+", "Cohere Command R+"),
  ("command a", "Command R Plus"),
  ("llama 4 maverick instruct", "Llama 4 Maverick"),
  ("llama-4-maverick", "Llama 4 Maverick"),
  ("meta-llama/llama-4-maverick", "Llama 4 Maverick"),
  ("magistral medium", "Mistral Large"),
  ("intellect 3", "intellect-3"),
  ("intellect-3", "intellect-3"),
  ("gpt-4.5-preview-2025-02-27", "GPT-4.5"),
  ("gpt-4.5-preview", "GPT-4.5"),
  ("qwen3-coder 480b/a35b instruct", "Qwen3-Coder"),
  ("qwen3 coder 480b/a35b instruct", "Qwen3-Coder"),
  ("claude 4.5 haiku", "Claude 3 Haiku"),
  ("claude haiku 4.5", "Claude 3 Haiku"),
  ("claude 4.5 haiku (high reasoning)", "Claude 3 Haiku"),
  ("nova-pro-v1:0", "Amazon Nova Lite"),
  ("amazon/nova-pro-v1:0", "Amazon Nova Lite")]

/-- Characters the leading-emoji regex of `_strip_noise` matches:
`[\U00010000-\U0010ffff\U00002600-\U000027BF\U0001F300-\U0001FAFF]`. -/
def isEmojiNoise (c : Char) : Bool :=
  (0x10000 ≤ c.toNat && c.toNat ≤ 0x10FFFF) ||
  (0x2600 ≤ c.toNat && c.toNat ≤ 0x27BF) ||
  (0x1F300 ≤ c.toNat && c.toNat ≤ 0x1FAFF)

/-- Leading-decoration strip of `_strip_noise`: one or more emoji-class
characters followed by optional whitespace are removed (nothing happens when
the string does not start with one). -/
def stripEmoji (l : List Char) : List Char :=
  match l with
  | [] => []
  | c :: _ =>
    if isEmojiNoise c then (l.dropWhile isEmojiNoise).dropWhile Char.isWhitespace
    else l

/-- Character class `[a-z0-9\-_]` of the org-slug pattern. -/
def isOrgSlugChar (c : Char) : Bool :=
  c.isLower || c.isDigit || c == '-' || c == '_'

/-- Org-path strip of `_strip_noise`: when a `/` is present and everything
before the first `/` matches `^[a-z0-9\-_]+$`, keep only the part after it. -/
def stripOrgSlug (l : List Char) : List Char :=
  if l.contains '/' then
    let before := l.takeWhile (fun c => c != '/')
    let after := (l.dropWhile (fun c => c != '/')).tail
    if !before.isEmpty && before.all isOrgSlugChar then after else l
  else l

/-- The raw-API suffix alternatives of `_strip_noise` (matched
case-insensitively at the end of the string). -/
def RAW_SUFFIXES : List String :=
  ["(zero shot)", "(scratchpad)", "(thinking)", "(high reasoning)"]

/-- Drop trailing whitespace. -/
def dropTrailWs (l : List Char) : List Char :=
  (l.reverse.dropWhile Char.isWhitespace).reverse

/-- Trailing raw-API suffix strip of `_strip_noise`:
`re.sub(r'\s*\((zero shot|scratchpad|thinking|high reasoning)\)\s*$', ...)`. -/
def stripRawSuffix (l : List Char) : List Char :=
  let t := dropTrailWs l
  match RAW_SUFFIXES.find? (fun sfx => sfx.data.isSuffixOf (slower (String.mk t)).data) with
  | some sfx => dropTrailWs (t.take (t.length - sfx.length))
  | none => l

/-- `_strip_noise` from `model_names.py`. -/
def stripNoise (name : String) : String :=
  String.mk (pyStrip (stripRawSuffix (stripOrgSlug (stripEmoji name.data))))

/-- Helper for the `(\d)\s*-\s*(\d)` pattern of `_normalize`: after a digit,
try to consume optional whitespace, a dash, optional whitespace and a second
digit, returning that digit and the rest of the input. -/
def dashTail (t : List Char) : Option (Char × List Char) :=
  match t.dropWhile Char.isWhitespace with
  | '-' :: r =>
    match r.dropWhile Char.isWhitespace with
    | d :: rest => if d.isDigit then some (d, rest) else none
    | [] => none
  | _ => none

/-- Fuel-driven scan for `re.sub(r'(\d)\s*-\s*(\d)', r'\1.\2', s)`; each step
consumes at least one character, so fuel equal to the input length is always
sufficient. -/
def digitDashFixGo : ℕ → List Char → List Char
  | 0, l => l
  | _ + 1, [] => []
  | fuel + 1, c :: t =>
    if c.isDigit then
      match dashTail t with
      | some (d, rest) => c :: '.' :: d :: digitDashFixGo fuel rest
      | none => c :: digitDashFixGo fuel t
    else c :: digitDashFixGo fuel t

/-- `re.sub(r'(\d)\s*-\s*(\d)', r'\1.\2', s)` from `_normalize` (a no-op in
practice, since `_normalize` has already replaced every dash by a space). -/
def digitDashFix (l : List Char) : List Char := digitDashFixGo l.length l

/-- Word characters for Python's `\b` boundary (`[a-zA-Z0-9_]`). -/
def isWordChar (c : Char) : Bool := c.isAlphanum || c == '_'

/-- `re.sub(r'\bv(\d)', r'\1', s)` from `_normalize`: drop a `v` standing
before a digit at a word boundary; scanning resumes after the digit.  The
boolean argument records whether the previous character was a word character. -/
def vDigitFix : List Char → Bool → List Char
  | [], _ => []
  | [c], _ => [c]
  | c :: d :: t2, prevW =>
    if c == 'v' && !prevW && d.isDigit then d :: vDigitFix t2 true
    else c :: vDigitFix (d :: t2) (isWordChar c)

/-- `re.sub(r'\s+', ' ', s)`: collapse whitespace runs to single spaces.  The
boolean argument records whether the previous character was whitespace. -/
def collapseWsAux : Bool → List Char → List Char
  | _, [] => []
  | prevWs, c :: t =>
    if c.isWhitespace then
      if prevWs then collapseWsAux true t else ' ' :: collapseWsAux true t
    else c :: collapseWsAux false t

/-- `s.replace('_', ' ').replace('-', ' ')` character map. -/
def dashUnder (c : Char) : Char := if c == '_' || c == '-' then ' ' else c

/-- `_normalize` from `model_names.py`: lowercase, dashes/underscores to
spaces, version-separator normalization, whitespace collapse, strip. -/
def normalizeName (name : String) : String :=
  String.mk (pyStrip (collapseWsAux false
    (vDigitFix (digitDashFix ((slower (stripNoise name)).data.map dashUnder)) false)))

/-- `_CLAUDE_SHORT` from `canonicalize`. -/
def CLAUDE_SHORT : List (String × String) :=
  [("opus ", "Claude Opus "), ("sonnet ", "Claude Sonnet "), ("haiku ", "Claude Haiku ")]

/-- `cl in ALIASES` / `ALIASES[cl]` (keys already lowercase). -/
def aliasGet (k : String) : Option String := alookup ALIASES k

/-- Scan of `CANONICAL_ROSTER` for `c.lower() == cl`. -/
def rosterExact (cl : String) : Option String :=
  CANONICAL_ROSTER.find? (fun c => slower c == cl)

/-- `canonicalize` from `model_names.py`. -/
def canonicalize (name : String) : String :=
  if name == "" || pyStripStr name == "" then name
  else
    let cleaned := stripNoise name
    let cl := slower cleaned
    match CLAUDE_SHORT.find? (fun p => strPrefixOf p.1 cl && !(strPrefixOf "claude" cl)) with
    | some p =>
      let expanded := p.2 ++ String.mk (cleaned.data.drop p.1.length)
      let clExp := slower expanded
      match aliasGet clExp with
      | some v => v
      | none =>
        match rosterExact clExp with
        | some c => c
        | none => expanded
    | none =>
      match aliasGet cl with
      | some v => v
      | none =>
        match rosterExact cl with
        | some c => c
        | none => cleaned

/-- Tier-1 test of `match_name`: exact canonical match (either the
canonicalized roster name or the raw roster name, case-insensitively). -/
def tier1hit (canon : String) (name : String) : Bool :=
  slower (canonicalize name) == slower canon || slower name == slower canon

/-- Tier-2 test of `match_name`: substring containment of normalized forms. -/
def tier2hit (canonNorm : String) (name : String) : Bool :=
  let n := normalizeName name
  infixOf canonNorm.data n.data || infixOf n.data canonNorm.data

/-- Tier-3 test of `match_name`: at least two common normalized tokens
(`len(c_tok & n_tok) >= 2` on Python sets, i.e. distinct common tokens). -/
def tier3hit (cTok : List String) (name : String) : Bool :=
  let nTok := pyWords (normalizeName name)
  decide (2 ≤ (cTok.filter (fun tk => nTok.contains tk)).length)

/-- `match_name` from `model_names.py`: tiered matching, first hit wins. -/
def match_name (scraped : String) (existing : List String) : Option String :=
  if scraped == "" then none
  else
    let canon := canonicalize scraped
    let canonNorm := normalizeName canon
    match existing.find? (tier1hit canon) with
    | some n => some n
    | none =>
      match existing.find? (tier2hit canonNorm) with
      | some n => some n
      | none =>
        let cTok := (pyWords canonNorm).dedup
        existing.find? (tier3hit cTok)

/-- Python `x in n` over a keyword list (`any(x in n for x in [...])`). -/
def anyKeyword (n : String) (ks : List String) : Bool :=
  ks.any (fun k => infixOf k.data n.data)

/-- `_infer_company` from `agent_trs.py`. -/
def inferCompany (name : String) : String :=
  let n := slower name
  if anyKeyword n ["gpt", "o1-", "o3-", "o4-", "chatgpt", "davinci"] then "OpenAI"
  else if anyKeyword n ["claude", "opus", "sonnet", "haiku"] then "Anthropic"
  else if anyKeyword n ["gemini", "gemma", "bard"] then "Google"
  else if anyKeyword n ["grok"] then "xAI"
  else if anyKeyword n ["llama", "meta-", "turbo"] then "Meta"
  else if anyKeyword n ["mistral", "mixtral", "pixtral", "codestral", "voxtral", "devstral"] then "Mistral"
  else if anyKeyword n ["deepseek"] then "DeepSeek"
  else if anyKeyword n ["qwen", "qwq"] then "Alibaba"
  else if anyKeyword n ["glm", "chatglm", "zhipu"] then "Zhipu AI"
  else if anyKeyword n ["minimax"] then "MiniMax"
  else if anyKeyword n ["command", "cohere", "aya"] then "Cohere"
  else if anyKeyword n ["moonshot", "kimi"] then "Moonshot AI"
  else if anyKeyword n ["nova", "titan", "amazon"] then "Amazon"
  else if anyKeyword n ["phi-", "copilot", "wizardlm"] then "Microsoft"
  else if anyKeyword n ["nemotron", "nvidia"] then "NVIDIA"
  else if anyKeyword n ["falcon"] then "TII"
  else if anyKeyword n ["yi-", "01.ai"] then "01.AI"
  else if anyKeyword n ["granite", "ibm"] then "IBM"
  else if anyKeyword n ["olmo", "olmoe", "molmo", "tulu"] then "AI2"
  else if anyKeyword n ["palmyra", "palm", "writer"] then "Writer"
  else if anyKeyword n ["dbrx", "databricks"] then "Databricks"
  else if anyKeyword n ["mercury", "inception"] then "Inception"
  else if anyKeyword n ["intellect"] then "PrimeIntellect"
  else "Unknown"

/-! ## SHA-256 (`hashlib.sha256(...).hexdigest()`), executable over byte lists -/

/-- UTF-8 encoding of one code point. -/
def charUtf8 (c : Char) : List ℕ :=
  let n := c.toNat
  if n < 128 then [n]
  else if n < 2048 then [192 + n / 64, 128 + n % 64]
  else if n < 65536 then [224 + n / 4096, 128 + n / 64 % 64, 128 + n % 64]
  else [240 + n / 262144, 128 + n / 4096 % 64, 128 + n / 64 % 64, 128 + n % 64]

/-- Python `s.encode('utf-8')` as a list of byte values. -/
def utf8Bytes (s : String) : List ℕ := (s.data.map charUtf8).flatten

/-- 2^32, the word modulus. -/
def M32 : ℕ := 4294967296

/-- Addition modulo 2^32. -/
def a32 (x y : ℕ) : ℕ := (x + y) % M32

/-- Right rotation of a 32-bit word. -/
def rotr32 (n x : ℕ) : ℕ := x / 2 ^ n + x % 2 ^ n * 2 ^ (32 - n)

/-- Bitwise complement within 32 bits (operands below 2^32). -/
def not32 (x : ℕ) : ℕ := M32 - 1 - x

/-- SHA-256 `Ch e f g`. -/
def shaCh (e f g : ℕ) : ℕ := Nat.xor (Nat.land e f) (Nat.land (not32 e) g)

/-- SHA-256 `Maj a b c`. -/
def shaMaj (a b c : ℕ) : ℕ := Nat.xor (Nat.xor (Nat.land a b) (Nat.land a c)) (Nat.land b c)

/-- SHA-256 small sigma-0. -/
def ssig0 (w : ℕ) : ℕ := Nat.xor (Nat.xor (rotr32 7 w) (rotr32 18 w)) (w / 2 ^ 3)

/-- SHA-256 small sigma-1. -/
def ssig1 (w : ℕ) : ℕ := Nat.xor (Nat.xor (rotr32 17 w) (rotr32 19 w)) (w / 2 ^ 10)

/-- SHA-256 big Sigma-0. -/
def bsig0 (a : ℕ) : ℕ := Nat.xor (Nat.xor (rotr32 2 a) (rotr32 13 a)) (rotr32 22 a)

/-- SHA-256 big Sigma-1. -/
def bsig1 (e : ℕ) : ℕ := Nat.xor (Nat.xor (rotr32 6 e) (rotr32 11 e)) (rotr32 25 e)

/-- The 64 SHA-256 round constants. -/
def K256 : List ℕ := [
  1116352408, 1899447441, 3049323471, 3921009573, 961987163,
  1508970993, 2453635748, 2870763221, 3624381080, 310598401,
  607225278, 1426881987, 1925078388, 2162078206, 2614888103,
  3248222580, 3835390401, 4022224774, 264347078, 604807628,
  770255983, 1249150122, 1555081692, 1996064986, 2554220882,
  2821834349, 2952996808, 3210313671, 3336571891, 3584528711,
  113926993, 338241895, 666307205, 773529912, 1294757372,
  1396182291, 1695183700, 1986661051, 2177026350, 2456956037,
  2730485921, 2820302411, 3259730800, 3345764771, 3516065817,
  3600352804, 4094571909, 275423344, 430227734, 506948616,
  659060556, 883997877, 958139571, 1322822218, 1537002063,
  1747873779, 1955562222, 2024104815, 2227730452, 2361852424,
  2428436474, 2756734187, 3204031479, 3329325298]

/-- The SHA-256 initial hash value. -/
def H256 : List ℕ := [
  1779033703, 3144134277, 1013904242, 2773480762, 1359893119,
  2600822924, 528734635, 1541459225]

/-- SHA-256 message padding: `0x80`, zeros to 56 mod 64, 8-byte big-endian
bit length. -/
def shaPad (msg : List ℕ) : List ℕ :=
  let len := msg.length
  let zeros := (120 - (len + 1) % 64) % 64
  msg ++ [128] ++ List.replicate zeros 0 ++
    (List.range 8).map (fun i => 8 * len / 2 ^ (8 * (7 - i)) % 256)

/-- Split into 64-byte blocks (fuel-driven; the fuel is always sufficient). -/
def chunks64Go : ℕ → List ℕ → List (List ℕ)
  | 0, _ => []
  | _, [] => []
  | fuel + 1, l => l.take 64 :: chunks64Go fuel (l.drop 64)

/-- Split a padded message into its 64-byte blocks. -/
def chunks64 (l : List ℕ) : List (List ℕ) := chunks64Go l.length l

/-- The 16 big-endian 32-bit words of one block. -/
def blockWords (b : List ℕ) : List ℕ :=
  (List.range 16).map (fun i =>
    b.getD (4 * i) 0 * 16777216 + b.getD (4 * i + 1) 0 * 65536 +
    b.getD (4 * i + 2) 0 * 256 + b.getD (4 * i + 3) 0)

/-- Extend 16 schedule words to 64. -/
def schedExtend (ws : List ℕ) : List ℕ :=
  (List.range 48).foldl
    (fun ws _ =>
      ws ++ [a32 (a32 (ssig1 (ws.getD (ws.length - 2) 0)) (ws.getD (ws.length - 7) 0))
               (a32 (ssig0 (ws.getD (ws.length - 15) 0)) (ws.getD (ws.length - 16) 0))])
    ws

/-- One SHA-256 compression round on an 8-word state. -/
def shaRound (st : List ℕ) (kw : ℕ × ℕ) : List ℕ :=
  match st with
  | [a, b, c, d, e, f, g, h] =>
    let t1 := a32 h (a32 (bsig1 e) (a32 (shaCh e f g) (a32 kw.1 kw.2)))
    let t2 := a32 (bsig0 a) (shaMaj a b c)
    [a32 t1 t2, a, b, c, a32 d t1, e, f, g]
  | _ => st

/-- Compress one 64-byte block into the running hash. -/
def shaBlock (h : List ℕ) (block : List ℕ) : List ℕ :=
  let ws := schedExtend (blockWords block)
  let st := (K256.zip ws).foldl shaRound h
  (h.zip st).map (fun p => a32 p.1 p.2)

/-- Big-endian bytes of a 32-bit word. -/
def word4 (w : ℕ) : List ℕ := [w / 16777216 % 256, w / 65536 % 256, w / 256 % 256, w % 256]

/-- SHA-256 digest bytes of a byte-list message. -/
def sha256Bytes (msg : List ℕ) : List ℕ :=
  (((chunks64 (shaPad msg)).foldl shaBlock H256).map word4).flatten

/-- One lowercase hex digit. -/
def hexDigit (n : ℕ) : Char := Char.ofNat (if n < 10 then 48 + n else 87 + n)

/-- Two-digit lowercase hex of one byte. -/
def byteHex (b : ℕ) : String := String.mk [hexDigit (b / 16), hexDigit (b % 16)]

/-- `hashlib.sha256(s.encode()).hexdigest()`. -/
def sha256HexOfString (s : String) : String :=
  String.join ((sha256Bytes (utf8Bytes s)).map byteHex)

/-! ## Decimal formatting (`f"{s:.1f}"`, `str(float)`) -/

/-- Decimal string of `n / 10^k` with exactly `k` fractional digits. -/
def natDecRepr (k n : ℕ) : String :=
  let fr := toString (n % 10 ^ k)
  toString (n / 10 ^ k) ++ "." ++ String.mk (List.replicate (k - fr.length) '0') ++ fr

/-- Signed decimal string of `t / 10^k` with exactly `k` fractional digits. -/
def intDecRepr (k : ℕ) (t : ℤ) : String :=
  if t < 0 then "-" ++ natDecRepr k t.natAbs else natDecRepr k t.toNat

/-- Python `f"{q:.1f}"` on the exact-rational embedding: round to one decimal
digit (nearest, ties to even) and print with exactly one fractional digit. -/
def fmtFixed1 (q : ℚ) : String := intDecRepr 1 (rnd (q * 10))

/-- One score-history slot as the engine's checksum serializes it:
`f"{s:.1f}" if s is not None else "null"`. -/
def scoreSlotStr : Option ℚ → String
  | none => "null"
  | some s => fmtFixed1 s

/-! ## `agent_trs.py` — data model and scoring pipeline -/

/-- One entry of `data["models"]` in `trs-data.json` (the fields the engine
reads and writes; diagnostic/display-only keys are omitted). -/
structure Model where
  name : String
  company : String
  rank : ℕ
  scores : List (Option ℚ)
  category_count : ℕ
  pillar_scores : List (String × ℚ)
deriving Repr, DecidableEq, Inhabited

/-- The persisted ledger `trs-data.json`: date axis, model list, checksum. -/
structure TrsData where
  dates : List String
  models : List Model
  checksum : String
deriving Repr, DecidableEq, Inhabited

/-- `WEIGHTS` from `agent_trs.py` (TRSbench Bible V2.5), exact decimals. -/
def WEIGHTS : List (String × ℚ) := [
  ("safety", 21/100),
  ("reasoning", 20/100),
  ("coding", 20/100),
  ("human_preference", 18/100),
  ("knowledge", 8/100),
  ("efficiency", 7/100),
  ("usage_adoption", 6/100)]

/-- `QUALIFICATION_MIN_CATEGORIES` from `agent_trs.py`. -/
def QUALIFICATION_MIN_CATEGORIES : ℕ := 1

/-- `AUTO_DISCOVER_MIN_SOURCES` from `agent_trs.py`. -/
def AUTO_DISCOVER_MIN_SOURCES : ℕ := 2

/-- `normalize_across_models` from `agent_trs.py`: restrict the raw values to
the roster, drop absent and non-positive values, scale so the top value maps
to 100, rounding each output to 4 decimal places. -/
def normalize_across_models (models : List Model) (category : String)
    (raw_values : List (String × ℚ)) : List (String × ℚ) :=
  let vals0 := pyDict (models.map (fun m => (m.name, alookup raw_values m.name)))
  let vals := vals0.filterMap (fun kv =>
    match kv.2 with
    | some v => if 0 < v then some (kv.1, v) else none
    | none => none)
  if vals.isEmpty then []
  else
    let top := listMax (vals.map (·.2))
    vals.map (fun kv => (kv.1, pyRound 4 (kv.2 / top * 100)))

/-- The `available_weights` filter of `calculate_composite`: categories in
which the model has a present, positive normalized value. -/
def available_weights (weights : List (String × ℚ)) (model_name : String)
    (normalized : List (String × List (String × ℚ))) : List (String × ℚ) :=
  weights.filter (fun kw =>
    match alookup ((alookup normalized kw.1).getD []) model_name with
    | some v => decide (0 < v)
    | none => false)

/-- `calculate_composite` from `agent_trs.py`, with the module-level `WEIGHTS`
dict as an explicit parameter (`total_pillars = len(WEIGHTS)`): weighted
average over available pillars with weights renormalized to sum 1, then the
coverage dampener `0.70 + 0.30 * (covered / total_pillars)`, rounded to 2
decimal places.  Models with 0 pillars get `(0.0, 0)`. -/
def calculate_compositeW (weights : List (String × ℚ)) (model_name : String)
    (normalized : List (String × List (String × ℚ))) : ℚ × ℕ :=
  let total_pillars := weights.length
  let aw := available_weights weights model_name normalized
  if aw.isEmpty then (0, 0)
  else
    let weight_sum := (aw.map (·.2)).sum
    let raw_composite := (aw.map (fun kw =>
      ((alookup ((alookup normalized kw.1).getD []) model_name).getD 0) *
        (kw.2 / weight_sum))).sum
    let covered := aw.length
    let dampener := 7/10 + 3/10 * ((covered : ℚ) / (total_pillars : ℚ))
    (pyRound 2 (raw_composite * dampener), covered)

/-- `calculate_composite` at the actual `WEIGHTS` of `agent_trs.py`. -/
def calculate_composite (model_name : String)
    (normalized : List (String × List (String × ℚ))) : ℚ × ℕ :=
  calculate_compositeW WEIGHTS model_name normalized

/-- `generate_checksum` from `agent_trs.py`: names joined with `|`, then `:`,
then every score slot (entity-major, date-minor) formatted `%.1f` / `null`
and joined with `,`; SHA-256 hex over the UTF-8 bytes. -/
def generate_checksum (data : TrsData) : String :=
  let names := String.intercalate "|" (data.models.map (·.name))
  let scores := String.intercalate ","
    ((data.models.map (fun m => m.scores.map scoreSlotStr)).flatten)
  sha256HexOfString (names ++ ":" ++ scores)

/-- The "basic sanity filter" of `auto_discover_models`:
`not name or len(name) < 3 or name.replace("-","").replace("_","").isdigit()`. -/
def sanitySkip (name : String) : Bool :=
  name == "" || decide (name.length < 3) ||
    pyIsDigit (name.data.filter (fun c => c != '-' && c != '_'))

/-- The fresh roster entry `auto_discover_models` builds for a new model. -/
def newModelEntry (name : String) (numDates : ℕ) : Model :=
  { name := name, company := inferCompany name, rank := 999,
    scores := List.replicate numDates none, category_count := 0,
    pillar_scores := [] }

/-- The `pillar_counts` dict of `auto_discover_models`: in how many pillar
result maps each scraped name appears. -/
def pillarCounts (all_results : List (String × List (String × ℚ))) :
    List (String × ℕ) :=
  all_results.foldl
    (fun pc cat =>
      cat.2.foldl (fun pc kv => dinsert pc kv.1 ((alookup pc kv.1).getD 0 + 1)) pc)
    []

/-- One iteration of the discovery loop of `auto_discover_models`: skip
garbage names, names seen in fewer than `AUTO_DISCOVER_MIN_SOURCES` pillars,
and names the resolver matches to the existing roster; otherwise append a
fresh entry with an all-`null` history over the current date axis. -/
def discoverStep (numDates : ℕ) (count : ℕ) (models : List Model)
    (name : String) : List Model :=
  if sanitySkip name then models
  else if count < AUTO_DISCOVER_MIN_SOURCES then models
  else
    match match_name name (models.map (·.name)) with
    | some _ => models
    | none => models ++ [newModelEntry name numDates]

/-- The model list produced by the discovery loop of `auto_discover_models`:
the scraped names are visited in sorted order and qualifying new ones are
appended to the roster. -/
def discoveredModels (data : TrsData)
    (all_results : List (String × List (String × ℚ))) : List Model :=
  (sortByLe strLe ((pillarCounts all_results).map (·.1))).foldl
    (fun ms name => discoverStep data.dates.length
      ((alookup (pillarCounts all_results) name).getD 0) ms name)
    data.models

/-- `auto_discover_models` from `agent_trs.py`: iterate the scraped names in
sorted order and merge qualifying new ones into the roster. -/
def auto_discover_models (data : TrsData)
    (all_results : List (String × List (String × ℚ))) : TrsData :=
  { data with models := discoveredModels data all_results }

/-- `main`, date-slot step: is today's date absent from the axis? -/
def date_is_new (data : TrsData) (today : String) : Bool :=
  !(data.dates.contains today)

/-- `main`, date-slot step: the date axis after resolving today's slot
(append today when absent, keep the axis otherwise). -/
def resolvedDates (data : TrsData) (today : String) : List String :=
  if data.dates.contains today then data.dates else data.dates ++ [today]

/-- `main`, date-slot step: `today_idx` (`dates.index(TODAY)` when present,
else the index of the freshly appended slot). -/
def todayIdxOf (data : TrsData) (today : String) : ℕ :=
  if data.dates.contains today then data.dates.indexOf today
  else data.dates.length

/-- The ledger state after the date-slot and auto-discovery steps of `main`. -/
def discoveredData (data : TrsData) (today : String)
    (all_results : List (String × List (String × ℚ))) : TrsData :=
  auto_discover_models { data with dates := resolvedDates data today } all_results

/-- The per-category `normalized` dict of `main`, computed over the
post-discovery roster. -/
def normalizedFor (data : TrsData) (today : String)
    (all_results : List (String × List (String × ℚ))) :
    List (String × List (String × ℚ)) :=
  all_results.map (fun cat =>
    (cat.1, normalize_across_models (discoveredData data today all_results).models cat.1 cat.2))

/-- The per-model body of the scoring loop of `main`: compute the composite,
pad the history up to `today_idx`, then append (new date) or overwrite
(existing date) today's slot, and refresh `category_count` and the latest
`pillar_scores`. -/
def applyModelScore (normalized : List (String × List (String × ℚ)))
    (today_idx : ℕ) (isNew : Bool) (m : Model) : Model :=
  let sc := (calculate_composite m.name normalized).1
  let cnt := (calculate_composite m.name normalized).2
  let s1 := m.scores ++ List.replicate (today_idx - m.scores.length) none
  let s2 :=
    if isNew then s1 ++ [some sc]
    else if today_idx < s1.length then s1.set today_idx (some sc)
    else s1 ++ [some sc]
  let ps := normalized.filterMap (fun cat =>
    (alookup cat.2 m.name).map (fun v => (cat.1, pyRound 1 v)))
  { m with category_count := cnt, scores := s2,
           pillar_scores := if ps.isEmpty then m.pillar_scores else ps }

/-- The models after the scoring loop of `main`. -/
def scoredModels (data : TrsData) (today : String)
    (all_results : List (String × List (String × ℚ))) : List Model :=
  (discoveredData data today all_results).models.map
    (applyModelScore (normalizedFor data today all_results)
      (todayIdxOf data today) (date_is_new data today))

/-- `today_score` from `main`: today's slot, `-1.0` when absent or out of
range. -/
def today_score (today_idx : ℕ) (m : Model) : ℚ :=
  match m.scores.get? today_idx with
  | some (some s) => s
  | _ => -1

/-- The total order Python's stable `sorted(qualified, key=today_score,
reverse=True)` realizes on the enumerated model list: higher today-score
first, ties by original position. -/
def rankLe (today_idx : ℕ) (p q : ℕ × Model) : Bool :=
  let sp := today_score today_idx p.2
  let sq := today_score today_idx q.2
  if sq < sp then true else if sp < sq then false else decide (p.1 ≤ q.1)

/-- The `ranked` list of `main`: qualified models sorted by today's
composite, descending, stable. -/
def rankedOrder (models : List Model) (today_idx : ℕ) : List (ℕ × Model) :=
  sortByLe (rankLe today_idx)
    (models.enum.filter (fun p => decide (QUALIFICATION_MIN_CATEGORIES ≤ p.2.category_count)))

/-- The rank-update step of `main`: every qualified model receives its
1-based position in `ranked`; a model below the qualification threshold is
not touched. -/
def recompute_ranks (models : List Model) (today_idx : ℕ) : List Model :=
  models.enum.map (fun p =>
    if QUALIFICATION_MIN_CATEGORIES ≤ p.2.category_count then
      { p.2 with rank := (rankedOrder models today_idx).findIdx (fun q => q.1 == p.1) + 1 }
    else p.2)

/-- One full scoring run of `main` from `agent_trs.py` (scraping excluded:
`all_results` is the already-fetched per-pillar raw-value input), through
date-slot resolution, auto-discovery, normalization, scoring, rank update
and checksum stamping; `pipelineBase` is the ledger state just before the
checksum stamp. -/
def pipelineBase (data : TrsData) (today : String)
    (all_results : List (String × List (String × ℚ))) : TrsData :=
  { dates := resolvedDates data today,
    models := recompute_ranks (scoredModels data today all_results) (todayIdxOf data today),
    checksum := data.checksum }

/-- One full scoring run of `main` from `agent_trs.py`: the state above with
the freshly computed checksum stamped into it. -/
def runPipeline (data : TrsData) (today : String)
    (all_results : List (String × List (String × ℚ))) : TrsData :=
  { pipelineBase data today all_results with
    checksum := generate_checksum (pipelineBase data today all_results) }

end TrainingRun

namespace Truscore

open TrainingRun

/-! ## `agent_truscore.py` — normalizer with the inverted mode -/

/-- The present, positive raw values the TRUscore normalizer keeps
(`{k: v for k, v in raw_values.items() if v is not None and v > 0}`). -/
def presentVals (raw_values : List (String × Option ℚ)) : List (String × ℚ) :=
  raw_values.filterMap (fun kv =>
    match kv.2 with
    | some v => if 0 < v then some (kv.1, v) else none
    | none => none)

/-- `normalize_across_models` from `agent_truscore.py`: top performer maps to
100; `is_inverted` makes lower raw values better (`score = min / v * 100`);
each output is rounded to 4 decimal places. -/
def normalize_across_models (raw_values : List (String × Option ℚ))
    (is_inverted : Bool) : List (String × ℚ) :=
  let vals := presentVals raw_values
  if vals.isEmpty then []
  else if is_inverted then
    let min_val := listMin (vals.map (·.2))
    vals.map (fun kv => (kv.1, pyRound 4 (min_val / kv.2 * 100)))
  else
    let max_val := listMax (vals.map (·.2))
    vals.map (fun kv => (kv.1, pyRound 4 (kv.2 / max_val * 100)))

end Truscore

namespace FixIntegrity

open TrainingRun

/-! ## `fix_integrity.py` — the independent checksum reader -/

/-- Python `str(float)` (shortest round-trip representation) on the
finite-decimal rationals this system persists; scores are `round(x, 2)`
outputs, so at most two fractional digits occur.  (Rationals that are not
such decimals cannot arise from the persisted data; they fall through to
`toString`.) -/
def pyFloatStr (q : ℚ) : String :=
  if q.den = 1 then intDecRepr 1 (q.num * 10)
  else if (q * 10).den = 1 then intDecRepr 1 (q * 10).num
  else if (q * 100).den = 1 then intDecRepr 2 (q * 100).num
  else toString q

/-- One score slot as `calculate_trainingrun_checksum` formats it: `"null"`
for absent, `f"{score:.1f}"` for integral scores, `str(score)` otherwise. -/
def readerSlotStr : Option ℚ → String
  | none => "null"
  | some q => if q.den = 1 then fmtFixed1 q else pyFloatStr q

/-- `calculate_trainingrun_checksum` from `fix_integrity.py` (the hex digest
it returns): names joined with `|`, `:`, comma-joined slot list, SHA-256. -/
def calculate_trainingrun_checksum (data : TrsData) : String :=
  let names_str := String.intercalate "|" (data.models.map (·.name))
  let scores_str := String.intercalate ","
    ((data.models.map (fun m => m.scores.map readerSlotStr)).flatten)
  sha256HexOfString (names_str ++ ":" ++ scores_str)

end FixIntegrity

namespace TrainingRun

/-! ## Concrete scenario data used by counterexamples and witnesses -/

attribute [local semireducible] Rat.add Rat.mul Rat.inv Rat.sub

/-- A one-model ledger aligned with a one-day axis (history length equals
axis length), used to exercise a run on a fresh date. -/
def dC1 : TrsData := {
  dates := ["2026-02-01"],
  models := [{ name := "Alpha Test", company := "Unknown", rank := 1,
               scores := [some 50], category_count := 1, pillar_scores := [] }],
  checksum := "" }

/-- Scrape results in which a brand-new name appears in two pillars, so
auto-discovery admits it. -/
def rC1 : List (String × List (String × ℚ)) :=
  [("reasoning", [("Brand New Model X", 80)]),
   ("coding", [("Brand New Model X", 70)])]

/-- A model carrying rank 3 from a previous run. -/
def mC9 : Model := { name := "Alpha Test", company := "Unknown", rank := 3,
                     scores := [some 50], category_count := 1, pillar_scores := [] }

/-- A ledger whose single model carries rank 3 from a previous run. -/
def dC9 : TrsData := { dates := ["2026-02-01"], models := [mC9], checksum := "" }

/-- `mC9` after the scoring stage of a fresh-date run with no data for it:
count 0, a numeric `0.0` appended for today, rank untouched. -/
def amC9 : Model := { name := "Alpha Test", company := "Unknown", rank := 3,
                      scores := [some 50, some 0], category_count := 0, pillar_scores := [] }

/-- A one-model, one-day ledger used to re-run an already-present date. -/
def mW7 : Model := { name := "Alpha Test", company := "Unknown", rank := 1,
                     scores := [some 50], category_count := 1, pillar_scores := [] }

/-- The ledger around `mW7`. -/
def dW7 : TrsData := { dates := ["2026-02-01"], models := [mW7], checksum := "" }

/-- Scrape results that mention only an unrelated, single-pillar name, so the
rostered model has no present value in any category. -/
def rC9 : List (String × List (String × ℚ)) :=
  [("reasoning", [("Zzz Other Model", 50)])]

/-- A one-model dataset with two recorded scores, for checksum claims. -/
def dC3 : TrsData := {
  dates := ["d1", "d2"],
  models := [{ name := "M", company := "", rank := 1,
               scores := [some 1, some 2], category_count := 0, pillar_scores := [] }],
  checksum := "" }

/-- A one-model dataset holding the two-decimal score 0.26. -/
def dC4 : TrsData := {
  dates := ["d1"],
  models := [{ name := "A", company := "", rank := 1,
               scores := [some (13/50)], category_count := 0, pillar_scores := [] }],
  checksum := "" }

/-- A dataset whose present scores all have at most one decimal digit. -/
def dC4w : TrsData := {
  dates := ["d1", "d2", "d3"],
  models := [{ name := "A", company := "", rank := 1,
               scores := [some 2, some (5/2), none], category_count := 0, pillar_scores := [] }],
  checksum := "" }

/-- A normalized-values table in which model `m` is present in exactly the
`safety` category, with value 100. -/
def nC5 : List (String × List (String × ℚ)) := [("safety", [("m", 100)])]

/-! ## C1 — ledger alignment invariant -/

/-- C1 (code bug): the claim states that after every run every entity's score
history has length equal to the date-axis length, including entities newly
added by auto-discovery.  The code violates this: on a new date, a discovered
entity is created with an all-`null` history over the already-extended axis
and the scoring loop then appends one more slot.  Starting from an aligned
one-model ledger and running on a fresh date with a discoverable new name,
the axis has 2 slots but the discovered entity's history has 3. -/
theorem c1_run_breaks_alignment_for_discovered_entity :
    (dC1.models.all (fun m => m.scores.length == dC1.dates.length)) = true ∧
    (runPipeline dC1 "2026-02-02" rC1).dates.length = 2 ∧
    ((runPipeline dC1 "2026-02-02" rC1).models.map (fun m => m.scores.length)) = [2, 3] ∧
    ¬ (∀ m ∈ (runPipeline dC1 "2026-02-02" rC1).models,
        m.scores.length = (runPipeline dC1 "2026-02-02" rC1).dates.length) := by
  refine ⟨by decide, by decide, by decide, by decide⟩

/-! ## C3 — canonical serialization of the integrity digest -/

/-- The canonical serialization exactly as claim C3 words it: the entity
names joined with `|`, then `:`, then the plain concatenation (no separator)
of every formatted score-history slot in entity-major, date-minor order. -/
def claimC3Serialization (data : TrsData) : String :=
  String.intercalate "|" (data.models.map (·.name)) ++ ":" ++
    String.join ((data.models.map (fun m => m.scores.map scoreSlotStr)).flatten)

/-- The serialization with the amendment C3 needs: the formatted slots are
joined with the separator `,` rather than plainly concatenated. -/
def claimC3SerializationAmended (data : TrsData) : String :=
  String.intercalate "|" (data.models.map (·.name)) ++ ":" ++
    String.intercalate "," ((data.models.map (fun m => m.scores.map scoreSlotStr)).flatten)

/-- C3 (counterexample): on a dataset with two score slots, the stored digest
is not the SHA-256 of the claim's separator-free serialization — the engine
joins the slots with `,`. -/
theorem c3_counterexample_concatenation_without_separator :
    generate_checksum dC3 ≠ sha256HexOfString (claimC3Serialization dC3) := by decide

/-- C3 (amended): the stored integrity digest equals the SHA-256 hex digest
of the canonical serialization in which the formatted slots (one decimal
digit for present scores, the literal `null` for absent slots, entity-major
then date-minor) are joined with `,` — both for `generate_checksum` on any
dataset and for the checksum every pipeline run stores. -/
theorem c3_checksum_is_sha256_of_comma_canonical :
    (∀ data : TrsData, generate_checksum data =
        sha256HexOfString (claimC3SerializationAmended data)) ∧
    (∀ (data : TrsData) (today : String) (results : List (String × List (String × ℚ))),
        (runPipeline data today results).checksum =
          sha256HexOfString (claimC3SerializationAmended (runPipeline data today results))) :=
  ⟨fun data => congrArg sha256HexOfString rfl,
   fun d t r => by
     simp only [runPipeline]
     exact congrArg sha256HexOfString rfl⟩

/-! ## C4 — reader recomputation of the digest -/

/-- Every present score has at most one decimal digit (the condition under
which the independent reader's float formatting coincides with the engine's
`%.1f`). -/
def oneDecimalScores (data : TrsData) : Bool :=
  data.models.all (fun m => m.scores.all (fun s =>
    match s with
    | some q => (q * 10).den == 1
    | none => true))

/-- C4 (counterexample): on a dataset holding the score 0.26 the reader's
recomputed digest differs from the engine's stored digest — the engine
serializes `0.3` (`%.1f`) while the reader serializes `0.26` (`str`). -/
theorem c4_counterexample_reader_digest_differs :
    FixIntegrity.calculate_trainingrun_checksum dC4 ≠ generate_checksum dC4 := by decide

/-! ## C5 — single-category composite -/

/-- C5 (counterexample): for a model present in exactly one category
(`safety`, weight 0.21 > 0) with normalized value 100, the composite is not
100: the coverage dampener `0.70 + 0.30 * (1/7)` scales it to 74.29. -/
theorem c5_counterexample_dampener_breaks_identity :
    available_weights WEIGHTS "m" nC5 = [("safety", 21/100)] ∧
    (0 : ℚ) < 21/100 ∧
    alookup ((alookup nC5 "safety").getD []) "m" = some 100 ∧
    (calculate_composite "m" nC5).1 = 7429/100 ∧
    (calculate_composite "m" nC5).1 ≠ 100 := by
  refine ⟨by decide, by decide, by decide, by decide, by decide⟩

end TrainingRun

namespace TrainingRun

attribute [local semireducible] Rat.add Rat.mul Rat.inv Rat.sub

/-- Rounding an integer-valued rational is the identity (on the numerator). -/
theorem rnd_den_one (x : ℚ) (h : x.den = 1) : rnd x = x.num := by
  have hx : (x.num : ℚ) = x := (Rat.den_eq_one_iff x).mp h
  unfold rnd
  have hf : Rat.floor x = x.num := by simp [Rat.floor, h]
  simp only [hf, hx, sub_self]
  norm_num

/-- On a score with at most one decimal digit, the reader's `str(score)`
formatting coincides with the engine's `%.1f` formatting. -/
theorem readerSlot_eq_engineSlot (q : ℚ) (h : (q * 10).den = 1) :
    FixIntegrity.readerSlotStr (some q) = scoreSlotStr (some q) := by
  by_cases hq : q.den = 1
  · simp [FixIntegrity.readerSlotStr, scoreSlotStr, hq]
  · simp only [FixIntegrity.readerSlotStr, scoreSlotStr, hq, if_false,
      FixIntegrity.pyFloatStr, h, if_true, fmtFixed1]
    rw [rnd_den_one _ h]

/-- C4 (amended): the reader's recomputation of the digest reproduces the
engine's stored digest on every dataset whose present scores all have at
most one decimal digit (for scores with more decimal digits the reader
serializes the full value while the engine rounds to one digit, so the two
digests differ in general — see the counterexample). -/
theorem c4_reader_digest_agrees_on_one_decimal_scores (data : TrsData)
    (h : oneDecimalScores data = true) :
    FixIntegrity.calculate_trainingrun_checksum data = generate_checksum data := by
  unfold FixIntegrity.calculate_trainingrun_checksum generate_checksum
  have hmaps : data.models.map (fun m => m.scores.map FixIntegrity.readerSlotStr) =
      data.models.map (fun m => m.scores.map scoreSlotStr) := by
    apply List.map_congr_left
    intro m hm
    apply List.map_congr_left
    intro s hs
    cases s with
    | none => rfl
    | some q =>
      apply readerSlot_eq_engineSlot
      unfold oneDecimalScores at h
      rw [List.all_eq_true] at h
      have h2 := h m hm
      rw [List.all_eq_true] at h2
      have h3 := h2 (some q) hs
      simpa using h3
  rw [hmaps]

/-- C4 (witness): on a concrete dataset with scores 2, 2.5 and an absent
slot, the reader digest equals the engine digest. -/
theorem c4_reader_digest_witness :
    oneDecimalScores dC4w = true ∧
    FixIntegrity.calculate_trainingrun_checksum dC4w = generate_checksum dC4w :=
  ⟨by decide, c4_reader_digest_agrees_on_one_decimal_scores dC4w (by decide)⟩

/-- C5 (amended): for an entity with a present normalized value `v` in
exactly one category (any positive weight `w` there), the composite is not
`v` itself but `round(v * (0.70 + 0.30 / total_pillars), 2)`: proportional
reweighting cancels the weight (`w/w = 1`) and the coverage dampener then
scales the value. -/
theorem c5_single_category_composite (weights : List (String × ℚ))
    (model_name : String) (normalized : List (String × List (String × ℚ)))
    (c : String) (w v : ℚ)
    (haw : available_weights weights model_name normalized = [(c, w)])
    (hw : 0 < w)
    (hv : alookup ((alookup normalized c).getD []) model_name = some v) :
    calculate_compositeW weights model_name normalized =
      (pyRound 2 (v * (7/10 + 3/10 * (1 / (weights.length : ℚ)))), 1) := by
  unfold calculate_compositeW
  rw [haw]
  simp only [List.isEmpty_cons, List.map_cons, List.map_nil, List.sum_cons,
    List.sum_nil, List.length_cons, List.length_nil, hv, Option.getD_some,
    add_zero, Bool.false_eq_true, if_false]
  have hw0 : w ≠ 0 := ne_of_gt hw
  rw [div_self hw0, mul_one]
  norm_num

/-- C5 (witness): instantiating the amended statement at the real `WEIGHTS`
(7 pillars) with value 100 in `safety` alone. -/
theorem c5_single_category_witness :
    calculate_compositeW WEIGHTS "m" nC5 =
      (pyRound 2 (100 * (7/10 + 3/10 * (1 / (WEIGHTS.length : ℚ)))), 1) :=
  c5_single_category_composite WEIGHTS "m" nC5 "safety" (21/100) 100
    (by decide) (by decide) (by decide)

end TrainingRun

namespace TrainingRun

attribute [local semireducible] Rat.add Rat.mul Rat.inv Rat.sub

/-- The starting point is a lower bound of a `foldl max`, and every list
element is too. -/
theorem le_foldl_max (xs : List ℚ) (x : ℚ) :
    x ≤ xs.foldl max x ∧ ∀ y ∈ xs, y ≤ xs.foldl max x := by
  induction xs generalizing x with
  | nil => simp
  | cons a t ih =>
    refine ⟨?_, ?_⟩
    · exact le_trans (le_max_left x a) (ih (max x a)).1
    · intro y hy
      rcases List.mem_cons.mp hy with rfl | hyt
      · exact le_trans (le_max_right x y) (ih (max x y)).1
      · exact (ih (max x a)).2 y hyt

/-- A `foldl max` is the starting point or one of the list elements. -/
theorem foldl_max_mem (xs : List ℚ) (x : ℚ) :
    xs.foldl max x = x ∨ xs.foldl max x ∈ xs := by
  induction xs generalizing x with
  | nil => exact Or.inl rfl
  | cons a t ih =>
    rcases ih (max x a) with h | h
    · rcases max_choice x a with hc | hc
      · exact Or.inl (by rw [List.foldl_cons, h, hc])
      · exact Or.inr (by rw [List.foldl_cons, h, hc]; exact List.mem_cons_self a t)
    · exact Or.inr (List.mem_cons_of_mem a h)

/-- Every element is at most `listMax`. -/
theorem le_listMax {l : List ℚ} {x : ℚ} (h : x ∈ l) : x ≤ listMax l := by
  cases l with
  | nil => cases h
  | cons a t =>
    rcases List.mem_cons.mp h with rfl | ht
    · exact (le_foldl_max t x).1
    · exact (le_foldl_max t a).2 x ht

/-- `listMax` of a nonempty list is one of its elements. -/
theorem listMax_mem {l : List ℚ} (h : l ≠ []) : listMax l ∈ l := by
  cases l with
  | nil => exact absurd rfl h
  | cons a t =>
    rcases foldl_max_mem t a with h1 | h1
    · have h2 : listMax (a :: t) = a := h1
      rw [h2]; exact List.mem_cons_self a t
    · exact List.mem_cons_of_mem a h1

/-- The starting point is an upper bound of a `foldl min`, and every list
element is too. -/
theorem foldl_min_le (xs : List ℚ) (x : ℚ) :
    xs.foldl min x ≤ x ∧ ∀ y ∈ xs, xs.foldl min x ≤ y := by
  induction xs generalizing x with
  | nil => simp
  | cons a t ih =>
    refine ⟨?_, ?_⟩
    · exact le_trans (ih (min x a)).1 (min_le_left x a)
    · intro y hy
      rcases List.mem_cons.mp hy with rfl | hyt
      · exact le_trans (ih (min x y)).1 (min_le_right x y)
      · exact (ih (min x a)).2 y hyt

/-- A `foldl min` is the starting point or one of the list elements. -/
theorem foldl_min_mem (xs : List ℚ) (x : ℚ) :
    xs.foldl min x = x ∨ xs.foldl min x ∈ xs := by
  induction xs generalizing x with
  | nil => exact Or.inl rfl
  | cons a t ih =>
    rcases ih (min x a) with h | h
    · rcases min_choice x a with hc | hc
      · exact Or.inl (by rw [List.foldl_cons, h, hc])
      · exact Or.inr (by rw [List.foldl_cons, h, hc]; exact List.mem_cons_self a t)
    · exact Or.inr (List.mem_cons_of_mem a h)

/-- `listMin` is at most every element. -/
theorem listMin_le {l : List ℚ} {x : ℚ} (h : x ∈ l) : listMin l ≤ x := by
  cases l with
  | nil => cases h
  | cons a t =>
    rcases List.mem_cons.mp h with rfl | ht
    · exact (foldl_min_le t x).1
    · exact (foldl_min_le t a).2 x ht

/-- `listMin` of a nonempty list is one of its elements. -/
theorem listMin_mem {l : List ℚ} (h : l ≠ []) : listMin l ∈ l := by
  cases l with
  | nil => exact absurd rfl h
  | cons a t =>
    rcases foldl_min_mem t a with h1 | h1
    · have h2 : listMin (a :: t) = a := h1
      rw [h2]; exact List.mem_cons_self a t
    · exact List.mem_cons_of_mem a h1

/-- Every value the TRUscore normalizer keeps is positive. -/
theorem presentVals_pos (raw_values : List (String × Option ℚ)) :
    ∀ p ∈ Truscore.presentVals raw_values, 0 < p.2 := by
  intro p hp
  unfold Truscore.presentVals at hp
  rw [List.mem_filterMap] at hp
  obtain ⟨kv, _, heq⟩ := hp
  rcases kv with ⟨k, ov⟩
  cases ov with
  | none => simp at heq
  | some v =>
    by_cases h0 : 0 < v
    · simp only [h0, if_true] at heq
      cases heq
      exact h0
    · simp [h0] at heq

end TrainingRun

namespace TrainingRun

attribute [local semireducible] Rat.add Rat.mul Rat.inv Rat.sub

/-- The TRUscore normalizer on an input with no present positive values. -/
theorem truscore_normalize_empty (raw : List (String × Option ℚ)) (inv : Bool)
    (h : Truscore.presentVals raw = []) :
    Truscore.normalize_across_models raw inv = [] := by
  unfold Truscore.normalize_across_models
  simp [h]

/-- The TRUscore normalizer on an input with at least one present positive
value, written as one map over the kept values. -/
theorem truscore_normalize_eq (raw : List (String × Option ℚ)) (inv : Bool)
    (h : Truscore.presentVals raw ≠ []) :
    Truscore.normalize_across_models raw inv =
      (Truscore.presentVals raw).map (fun kv => (kv.1, pyRound 4
        ((if inv then listMin ((Truscore.presentVals raw).map (·.2)) / kv.2
          else kv.2 / listMax ((Truscore.presentVals raw).map (·.2))) * 100))) := by
  unfold Truscore.normalize_across_models
  have hE : (Truscore.presentVals raw).isEmpty = false := by
    cases hl : Truscore.presentVals raw with
    | nil => exact absurd hl h
    | cons a t => rfl
  cases inv with
  | false => simp [hE]
  | true => simp [hE]

/-- C2 (amended): the TRUscore normalizer drops absent and non-positive raw
values; an input with no present positive value yields the empty mapping;
each kept entity maps to `100 * value / reference` (higher-is-better) or
`100 * reference / value` (lower-is-better) rounded to 4 decimal places,
where the reference is the maximum (resp. minimum) present value — an
attained bound of the present values — so the top performer maps to exactly
100. -/
theorem c2_normalizer (raw : List (String × Option ℚ)) (inv : Bool) :
    ((Truscore.normalize_across_models raw inv).map Prod.fst =
        (Truscore.presentVals raw).map Prod.fst) ∧
    (Truscore.presentVals raw = [] → Truscore.normalize_across_models raw inv = []) ∧
    (∀ k v, (k, v) ∈ Truscore.presentVals raw →
        (k, pyRound 4 ((if inv then
              listMin ((Truscore.presentVals raw).map (·.2)) / v
            else v / listMax ((Truscore.presentVals raw).map (·.2))) * 100))
          ∈ Truscore.normalize_across_models raw inv) ∧
    (∀ k v, (k, v) ∈ Truscore.presentVals raw →
        v = (if inv then listMin ((Truscore.presentVals raw).map (·.2))
             else listMax ((Truscore.presentVals raw).map (·.2))) →
        (k, (100 : ℚ)) ∈ Truscore.normalize_across_models raw inv) ∧
    (∀ w ∈ (Truscore.presentVals raw).map (·.2),
        if inv then listMin ((Truscore.presentVals raw).map (·.2)) ≤ w
        else w ≤ listMax ((Truscore.presentVals raw).map (·.2))) ∧
    (Truscore.presentVals raw ≠ [] →
        (if inv then listMin ((Truscore.presentVals raw).map (·.2))
         else listMax ((Truscore.presentVals raw).map (·.2)))
          ∈ (Truscore.presentVals raw).map (·.2)) := by
  have hC : ∀ k v, (k, v) ∈ Truscore.presentVals raw →
      (k, pyRound 4 ((if inv then
            listMin ((Truscore.presentVals raw).map (·.2)) / v
          else v / listMax ((Truscore.presentVals raw).map (·.2))) * 100))
        ∈ Truscore.normalize_across_models raw inv := by
    intro k v hkv
    have hne : Truscore.presentVals raw ≠ [] := by
      intro h0
      rw [h0] at hkv
      exact List.not_mem_nil _ hkv
    rw [truscore_normalize_eq raw inv hne]
    exact List.mem_map.mpr ⟨(k, v), hkv, rfl⟩
  refine ⟨?_, ?_, hC, ?_, ?_, ?_⟩
  · by_cases hne : Truscore.presentVals raw = []
    · rw [truscore_normalize_empty raw inv hne, hne]
    · rw [truscore_normalize_eq raw inv hne, List.map_map]
      exact List.map_congr_left (fun a _ => rfl)
  · exact truscore_normalize_empty raw inv
  · intro k v hkv hvref
    have hpos : 0 < v := presentVals_pos raw (k, v) hkv
    have h1 : (if inv then
          listMin ((Truscore.presentVals raw).map (·.2)) / v
        else v / listMax ((Truscore.presentVals raw).map (·.2))) = 1 := by
      cases inv with
      | false =>
        simp only [Bool.false_eq_true, if_false] at hvref ⊢
        rw [← hvref]
        exact div_self (ne_of_gt hpos)
      | true =>
        simp only [if_true] at hvref ⊢
        rw [← hvref]
        exact div_self (ne_of_gt hpos)
    have h2 := hC k v hkv
    rw [h1, one_mul] at h2
    have h3 : pyRound 4 (100 : ℚ) = 100 := by decide
    rw [h3] at h2
    exact h2
  · intro w hw
    cases inv with
    | false => simpa using le_listMax hw
    | true => simpa using listMin_le hw
  · intro hne
    have hmapne : (Truscore.presentVals raw).map (·.2) ≠ [] := by
      simpa using hne
    cases inv with
    | false => simpa using listMax_mem hmapne
    | true => simpa using listMin_mem hmapne

end TrainingRun

namespace TrainingRun

attribute [local semireducible] Rat.add Rat.mul Rat.inv Rat.sub

/-- C2 (counterexample): on raw values `{a: 1, b: 3}` (higher is better) the
normalizer outputs `33.3333` for `a` — the exact `100 * value / reference`
of the claim would be `100/3`, but the code rounds to 4 decimal places. -/
theorem c2_counterexample_output_is_rounded :
    alookup (Truscore.normalize_across_models [("a", some 1), ("b", some 3)] false) "a" =
      some (333333/10000) ∧
    (333333/10000 : ℚ) ≠ 100 * 1 / 3 :=
  ⟨by decide, by decide⟩

/-- C2 (witness): on the inverted raw values `{a: 2, b: 4, c: null, d: 0}`
the lowest present value `a` scores exactly 100. -/
theorem c2_normalizer_witness :
    ("a", (100 : ℚ)) ∈
      Truscore.normalize_across_models [("a", some 2), ("b", some 4), ("c", none), ("d", some 0)] true :=
  (c2_normalizer [("a", some 2), ("b", some 4), ("c", none), ("d", some 0)] true).2.2.2.1
    "a" 2 (by decide) (by decide)

end TrainingRun

namespace TrainingRun

/-- C8 (counterexample): `"Zeta"` matches both roster entries `"Zeta 1"` and
`"Zeta 2"` at tier 2 (substring containment on normalized forms), yet the
resolver does not return NO_MATCH on this ambiguous tie — it picks the first
candidate. -/
theorem c8_counterexample_ambiguous_tie_is_picked :
    tier2hit (normalizeName (canonicalize "Zeta")) "Zeta 1" = true ∧
    tier2hit (normalizeName (canonicalize "Zeta")) "Zeta 2" = true ∧
    ("Zeta 1" : String) ≠ "Zeta 2" ∧
    match_name "Zeta" ["Zeta 1", "Zeta 2"] = some "Zeta 1" :=
  ⟨by decide, by decide, by decide, by decide⟩

/-- C8 (amended): full first-hit-wins characterization of `match_name` on a
nonempty raw name.  If any roster entry satisfies tier 1 (exact canonical
match), the resolver returns the first such entry; failing that, if any
entry satisfies tier 2 (substring containment of normalized forms), it
returns the first such entry; failing that, if any entry satisfies tier 3
(at least two shared normalized tokens), it returns the first such entry;
and it returns NO_MATCH exactly when no roster entry satisfies any tier.
In particular, ambiguous ties within a tier — substring ties and
token-overlap ties alike — are resolved by picking the first candidate in
roster order, never by returning NO_MATCH. -/
theorem c8_first_hit_wins (scraped : String) (existing : List String)
    (hs : scraped ≠ "") :
    (∀ n, existing.find? (tier1hit (canonicalize scraped)) = some n →
        match_name scraped existing = some n) ∧
    (∀ n, (∀ e ∈ existing, tier1hit (canonicalize scraped) e = false) →
        existing.find? (tier2hit (normalizeName (canonicalize scraped))) = some n →
        match_name scraped existing = some n) ∧
    (∀ n, (∀ e ∈ existing, tier1hit (canonicalize scraped) e = false) →
        (∀ e ∈ existing, tier2hit (normalizeName (canonicalize scraped)) e = false) →
        existing.find? (tier3hit ((pyWords (normalizeName (canonicalize scraped))).dedup)) = some n →
        match_name scraped existing = some n) ∧
    (match_name scraped existing = none ↔
        ∀ e ∈ existing, tier1hit (canonicalize scraped) e = false ∧
          tier2hit (normalizeName (canonicalize scraped)) e = false ∧
          tier3hit ((pyWords (normalizeName (canonicalize scraped))).dedup) e = false) := by
  have hs2 : (scraped == "") = false := by
    rw [beq_eq_false_iff_ne]
    exact hs
  have hnone : ∀ (p : String → Bool), (∀ e ∈ existing, p e = false) →
      existing.find? p = none := fun p hall =>
    List.find?_eq_none.mpr (fun x hx => by rw [hall x hx]; exact Bool.false_ne_true)
  refine ⟨?_, ?_, ?_, ?_⟩
  · intro n h1
    unfold match_name
    simp only [hs2, Bool.false_eq_true, if_false, h1]
  · intro n h1all h2
    unfold match_name
    simp only [hs2, Bool.false_eq_true, if_false, hnone _ h1all, h2]
  · intro n h1all h2all h3
    unfold match_name
    simp only [hs2, Bool.false_eq_true, if_false, hnone _ h1all, hnone _ h2all, h3]
  · unfold match_name
    simp only [hs2, Bool.false_eq_true, if_false]
    constructor
    · intro hres e he
      cases h1 : existing.find? (tier1hit (canonicalize scraped)) with
      | some n => rw [h1] at hres; cases hres
      | none =>
        rw [h1] at hres
        cases h2 : existing.find? (tier2hit (normalizeName (canonicalize scraped))) with
        | some n => rw [h2] at hres; cases hres
        | none =>
          rw [h2] at hres
          have h3 : existing.find?
              (tier3hit ((pyWords (normalizeName (canonicalize scraped))).dedup)) = none := hres
          refine ⟨?_, ?_, ?_⟩
          · have := (List.find?_eq_none.mp h1) e he
            simpa using this
          · have := (List.find?_eq_none.mp h2) e he
            simpa using this
          · have := (List.find?_eq_none.mp h3) e he
            simpa using this
    · intro hall
      simp only [hnone _ (fun e he => (hall e he).1), hnone _ (fun e he => (hall e he).2.1),
        hnone _ (fun e he => (hall e he).2.2)]

/-- C8 (witness): the amended statement exercised on all three fronts — the
ambiguous tier-2 tie (`"Zeta"`), an ambiguous tier-3 token-overlap tie
(both entries share two normalized tokens with `"Alpha Beta Gamma"`), and a
raw name matching no tier at all, which alone yields NO_MATCH. -/
theorem c8_first_hit_wins_witness :
    match_name "Zeta" ["Zeta 1", "Zeta 2"] = some "Zeta 1" ∧
    tier3hit ((pyWords (normalizeName (canonicalize "Alpha Beta Gamma"))).dedup) "Beta Alpha One" = true ∧
    tier3hit ((pyWords (normalizeName (canonicalize "Alpha Beta Gamma"))).dedup) "Alpha Gamma Two" = true ∧
    match_name "Alpha Beta Gamma" ["Beta Alpha One", "Alpha Gamma Two"] = some "Beta Alpha One" ∧
    match_name "Qqqq" ["Wwww"] = none :=
  ⟨(c8_first_hit_wins "Zeta" ["Zeta 1", "Zeta 2"] (by decide)).2.1 "Zeta 1"
      (by decide) (by decide),
   by decide, by decide,
   (c8_first_hit_wins "Alpha Beta Gamma" ["Beta Alpha One", "Alpha Gamma Two"]
      (by decide)).2.2.1 "Beta Alpha One" (by decide) (by decide) (by decide),
   (c8_first_hit_wins "Qqqq" ["Wwww"] (by decide)).2.2.2.mpr (by decide)⟩

end TrainingRun

namespace TrainingRun

attribute [local semireducible] Rat.add Rat.mul Rat.inv Rat.sub

/-- One discovery step either leaves the roster unchanged or — exactly when
the resolver finds no match for the name among the current roster names —
appends the fresh entry. -/
theorem discoverStep_eq_or (numDates count : ℕ) (ms : List Model) (name : String) :
    discoverStep numDates count ms name = ms ∨
    (match_name name (ms.map (·.name)) = none ∧
      discoverStep numDates count ms name = ms ++ [newModelEntry name numDates]) := by
  unfold discoverStep
  split
  · exact Or.inl rfl
  · split
    · exact Or.inl rfl
    · cases h : match_name name (ms.map (·.name)) with
      | some nm => simp [h]
      | none => simp [h]

/-- The discovery loop only appends to the starting roster. -/
theorem discover_foldl_append (numDates : ℕ) (cnt : String → ℕ) :
    ∀ (names : List String) (ms : List Model),
      ∃ tl, names.foldl (fun ms name => discoverStep numDates (cnt name) ms name) ms
        = ms ++ tl := by
  intro names
  induction names with
  | nil => exact fun ms => ⟨[], (List.append_nil ms).symm⟩
  | cons n rest ih =>
    intro ms
    rw [List.foldl_cons]
    rcases discoverStep_eq_or numDates (cnt n) ms n with h | ⟨_, h⟩
    · rw [h]; exact ih ms
    · rw [h]
      obtain ⟨tl, htl⟩ := ih (ms ++ [newModelEntry n numDates])
      exact ⟨newModelEntry n numDates :: tl, by rw [htl, List.append_assoc]; rfl⟩

/-- Every model the discovery loop appends beyond the starting roster is a
fresh entry: sentinel rank 999, zero qualifying categories, an all-absent
history over the current axis, no pillar scores — and at the moment it was
appended the resolver found no match for its name among the names standing
before it. -/
theorem discover_foldl_spec (numDates : ℕ) (cnt : String → ℕ) :
    ∀ (names : List String) (ms : List Model) (j : ℕ) (m : Model),
      ms.length ≤ j →
      (names.foldl (fun ms name => discoverStep numDates (cnt name) ms name) ms).get? j
        = some m →
      m.rank = 999 ∧ m.category_count = 0 ∧ m.scores = List.replicate numDates none ∧
        m.pillar_scores = [] ∧
        match_name m.name
          (((names.foldl (fun ms name => discoverStep numDates (cnt name) ms name) ms).take j).map (·.name)) = none := by
  intro names
  induction names with
  | nil =>
    intro ms j m hj hm
    rw [List.foldl_nil] at hm
    rw [List.get?_eq_none.mpr hj] at hm
    cases hm
  | cons n rest ih =>
    intro ms j m hj hm
    rw [List.foldl_cons] at hm ⊢
    rcases discoverStep_eq_or numDates (cnt n) ms n with h | ⟨hmatch, h⟩
    · rw [h] at hm ⊢
      exact ih ms j m hj hm
    · rw [h] at hm ⊢
      by_cases hje : j = ms.length
      · subst hje
        obtain ⟨tl, htl⟩ := discover_foldl_append numDates cnt rest (ms ++ [newModelEntry n numDates])
        rw [htl, List.append_assoc] at hm ⊢
        rw [List.get?_append_right (le_refl ms.length), Nat.sub_self] at hm
        have hmm : m = newModelEntry n numDates := by
          simpa using hm.symm
        subst hmm
        refine ⟨rfl, rfl, rfl, rfl, ?_⟩
        rw [List.take_left]
        exact hmatch
      · have hj2 : (ms ++ [newModelEntry n numDates]).length ≤ j := by
          rw [List.length_append]
          simp only [List.length_cons, List.length_nil]
          omega
        exact ih (ms ++ [newModelEntry n numDates]) j m hj2 hm

end TrainingRun

namespace TrainingRun

attribute [local semireducible] Rat.add Rat.mul Rat.inv Rat.sub

/-- Projection: a pipeline run keeps the resolved date axis. -/
theorem runPipeline_dates (d : TrsData) (t : String)
    (r : List (String × List (String × ℚ))) :
    (runPipeline d t r).dates = resolvedDates d t := rfl

/-- Projection: the models of a pipeline run are the scored models with
ranks recomputed. -/
theorem runPipeline_models (d : TrsData) (t : String)
    (r : List (String × List (String × ℚ))) :
    (runPipeline d t r).models = recompute_ranks (scoredModels d t r) (todayIdxOf d t) := rfl

/-- Projection: the date axis after discovery is the resolved axis. -/
theorem discoveredData_dates (d : TrsData) (t : String)
    (r : List (String × List (String × ℚ))) :
    (discoveredData d t r).dates = resolvedDates d t := rfl

/-- Projection: the models after discovery. -/
theorem discoveredData_models (d : TrsData) (t : String)
    (r : List (String × List (String × ℚ))) :
    (discoveredData d t r).models
      = discoveredModels { d with dates := resolvedDates d t } r := rfl

/-- Today's date belongs to the resolved axis. -/
theorem mem_resolvedDates (d : TrsData) (t : String) : t ∈ resolvedDates d t := by
  unfold resolvedDates
  split
  · next h => exact List.elem_iff.mp h
  · exact List.mem_append_right _ (List.mem_singleton.mpr rfl)

/-- Discovery does not disturb the models loaded from the ledger. -/
theorem discoveredData_get?_of_lt (d : TrsData) (t : String)
    (r : List (String × List (String × ℚ))) (i : ℕ) (h : i < d.models.length) :
    (discoveredData d t r).models.get? i = d.models.get? i := by
  rw [discoveredData_models]
  obtain ⟨tl, htl⟩ := discover_foldl_append
    ({ d with dates := resolvedDates d t } : TrsData).dates.length
    (fun name => (alookup (pillarCounts r) name).getD 0)
    (sortByLe strLe ((pillarCounts r).map (·.1)))
    ({ d with dates := resolvedDates d t } : TrsData).models
  rw [show discoveredModels { d with dates := resolvedDates d t } r
      = ({ d with dates := resolvedDates d t } : TrsData).models ++ tl from htl]
  exact List.get?_append h

end TrainingRun

namespace TrainingRun

attribute [local semireducible] Rat.add Rat.mul Rat.inv Rat.sub

/-- C10: every entity added by auto-discovery during a run is created with
sentinel rank 999, qualifying category count 0, empty pillar scores and an
all-absent score history whose length equals the date-axis length at the
moment of creation — an axis that already contains today's slot, since
discovery runs after the date slot is resolved — and at insertion time its
name does not resolve (via `match_name`) to any name standing before it in
the roster. -/
theorem c10_auto_discovered_entity_shape (data : TrsData) (today : String)
    (results : List (String × List (String × ℚ))) (j : ℕ) (m : Model)
    (hj : data.models.length ≤ j)
    (hm : (discoveredData data today results).models.get? j = some m) :
    m.rank = 999 ∧ m.category_count = 0 ∧
    m.scores = List.replicate (discoveredData data today results).dates.length none ∧
    m.pillar_scores = [] ∧
    today ∈ (discoveredData data today results).dates ∧
    match_name m.name
      (((discoveredData data today results).models.take j).map (·.name)) = none := by
  rw [discoveredData_models] at hm
  unfold discoveredModels at hm
  have h := discover_foldl_spec _ _ _ _ j m hj hm
  refine ⟨h.1, h.2.1, ?_, h.2.2.2.1, ?_, ?_⟩
  · rw [discoveredData_dates]
    exact h.2.2.1
  · rw [discoveredData_dates]
    exact mem_resolvedDates data today
  · rw [discoveredData_models]
    unfold discoveredModels
    exact h.2.2.2.2

/-- C10 (witness): in the concrete fresh-date run, the single discovered
entity sits at index 1 with exactly the fresh-entry shape. -/
theorem c10_auto_discovered_witness :
    (discoveredData dC1 "2026-02-02" rC1).models.get? 1
        = some (newModelEntry "Brand New Model X" 2) ∧
    (newModelEntry "Brand New Model X" 2).rank = 999 ∧
    (newModelEntry "Brand New Model X" 2).category_count = 0 ∧
    (newModelEntry "Brand New Model X" 2).scores
        = List.replicate (discoveredData dC1 "2026-02-02" rC1).dates.length none ∧
    match_name (newModelEntry "Brand New Model X" 2).name
      (((discoveredData dC1 "2026-02-02" rC1).models.take 1).map (·.name)) = none := by
  have hm : (discoveredData dC1 "2026-02-02" rC1).models.get? 1
      = some (newModelEntry "Brand New Model X" 2) := by decide
  have h := c10_auto_discovered_entity_shape dC1 "2026-02-02" rC1 1
    (newModelEntry "Brand New Model X" 2) (by decide) hm
  exact ⟨hm, h.1, h.2.1, h.2.2.1, h.2.2.2.2.2⟩

end TrainingRun

namespace TrainingRun

attribute [local semireducible] Rat.add Rat.mul Rat.inv Rat.sub

/-- Pointwise description of the rank-update step: a qualified model gets
its 1-based position in the ranked order written into `rank`; a model below
the threshold is returned untouched. -/
theorem recompute_ranks_get? (models : List Model) (idx i : ℕ) (m : Model)
    (h : models.get? i = some m) :
    (recompute_ranks models idx).get? i =
      some (if QUALIFICATION_MIN_CATEGORIES ≤ m.category_count then
        { m with rank := (rankedOrder models idx).findIdx (fun q => q.1 == i) + 1 }
      else m) := by
  unfold recompute_ranks
  rw [List.get?_map, List.get?_enum, h]
  rfl

/-- The scoring loop never touches the `rank` field. -/
theorem applyModelScore_rank (normalized : List (String × List (String × ℚ)))
    (idx : ℕ) (isNew : Bool) (m : Model) :
    (applyModelScore normalized idx isNew m).rank = m.rank := rfl

/-- The scoring loop never touches the `name` field. -/
theorem applyModelScore_name (normalized : List (String × List (String × ℚ)))
    (idx : ℕ) (isNew : Bool) (m : Model) :
    (applyModelScore normalized idx isNew m).name = m.name := rfl

/-- The scoring loop records the covered-category count of the composite. -/
theorem applyModelScore_count (normalized : List (String × List (String × ℚ)))
    (idx : ℕ) (isNew : Bool) (m : Model) :
    (applyModelScore normalized idx isNew m).category_count
      = (calculate_composite m.name normalized).2 := rfl

/-- Scoring in append mode (new date) on a history already as long as the
slot index: today's composite is appended. -/
theorem applyModelScore_scores_append (normalized : List (String × List (String × ℚ)))
    (idx : ℕ) (m : Model) (hlen : m.scores.length = idx) :
    (applyModelScore normalized idx true m).scores
      = m.scores ++ [some (calculate_composite m.name normalized).1] := by
  unfold applyModelScore
  simp [hlen]

/-- Scoring in replace mode (existing date) on a history covering the slot
index: today's slot is overwritten in place. -/
theorem applyModelScore_scores_set (normalized : List (String × List (String × ℚ)))
    (idx : ℕ) (m : Model) (hlt : idx < m.scores.length) :
    (applyModelScore normalized idx false m).scores
      = m.scores.set idx (some (calculate_composite m.name normalized).1) := by
  unfold applyModelScore
  have h0 : idx - m.scores.length = 0 := Nat.sub_eq_zero_of_le (le_of_lt hlt)
  simp [h0, hlt]

/-- Pointwise description of the scoring stage. -/
theorem scoredModels_get? (d : TrsData) (t : String)
    (r : List (String × List (String × ℚ))) (i : ℕ) :
    (scoredModels d t r).get? i =
      ((discoveredData d t r).models.get? i).map
        (applyModelScore (normalizedFor d t r) (todayIdxOf d t) (date_is_new d t)) := by
  unfold scoredModels
  rw [List.get?_map]

end TrainingRun

namespace TrainingRun

attribute [local semireducible] Rat.add Rat.mul Rat.inv Rat.sub

/-- Setting a valid index then reading it back gives the new value. -/
theorem get?_set_self {α : Type} (l : List α) (n : ℕ) (a : α) (h : n < l.length) :
    (l.set n a).get? n = some a := by
  rw [List.get?_set_eq, List.get?_eq_get h]
  rfl

/-- Rank reassignment does not change a model's scores. -/
theorem rankIf_scores (x : Model) (v : ℕ) :
    ((if QUALIFICATION_MIN_CATEGORIES ≤ x.category_count then
      { x with rank := v } else x) : Model).scores = x.scores := by
  split <;> rfl

/-- Rank reassignment does not change a model's category count. -/
theorem rankIf_count (x : Model) (v : ℕ) :
    ((if QUALIFICATION_MIN_CATEGORIES ≤ x.category_count then
      { x with rank := v } else x) : Model).category_count = x.category_count := by
  split <;> rfl

/-- C7: running the pipeline for a date that is already present in the axis
leaves the date axis unchanged and overwrites — does not append — every
entity's slot for that date: each loaded entity whose history covers the
date's index keeps its history length and only the slot at that index is
replaced by today's composite. -/
theorem c7_same_day_run_overwrites (data : TrsData) (today : String)
    (results : List (String × List (String × ℚ)))
    (hmem : today ∈ data.dates)
    (hcov : ∀ m ∈ data.models, data.dates.indexOf today < m.scores.length) :
    (runPipeline data today results).dates = data.dates ∧
    ∀ i m, data.models.get? i = some m →
      ((runPipeline data today results).models.get? i).map (·.scores) =
        some (m.scores.set (data.dates.indexOf today)
          (some (calculate_composite m.name (normalizedFor data today results)).1)) := by
  have hb : data.dates.contains today = true := List.elem_iff.mpr hmem
  have hdates : resolvedDates data today = data.dates := by
    unfold resolvedDates
    rw [if_pos hb]
  have hidx : todayIdxOf data today = data.dates.indexOf today := by
    unfold todayIdxOf
    rw [if_pos hb]
  have hnew : date_is_new data today = false := by
    unfold date_is_new
    rw [hb]
    rfl
  refine ⟨by rw [runPipeline_dates, hdates], ?_⟩
  intro i m hm
  have hi : i < data.models.length := by
    rcases List.get?_eq_some.mp hm with ⟨h, _⟩
    exact h
  have hlt : data.dates.indexOf today < m.scores.length := hcov m (List.get?_mem hm)
  have hsc : (scoredModels data today results).get? i =
      some (applyModelScore (normalizedFor data today results) (todayIdxOf data today)
        (date_is_new data today) m) := by
    rw [scoredModels_get?, discoveredData_get?_of_lt data today results i hi, hm]
    rfl
  rw [runPipeline_models, recompute_ranks_get? _ _ _ _ hsc, Option.map_some', rankIf_scores,
    hnew, hidx, applyModelScore_scores_set _ _ _ hlt]

/-- C6 (amended): an entity with no present normalized value in any category
gets the numeric composite `0.0` — not an absent slot — written into today's
position of its score history, and its qualifying category count is set to
0. -/
theorem c6_no_data_records_zero (data : TrsData) (today : String)
    (results : List (String × List (String × ℚ))) (i : ℕ) (m : Model)
    (hm : data.models.get? i = some m)
    (hno : available_weights WEIGHTS m.name (normalizedFor data today results) = [])
    (hal : m.scores.length = data.dates.length) :
    ∃ m', (runPipeline data today results).models.get? i = some m' ∧
      m'.category_count = 0 ∧
      m'.scores.get? (todayIdxOf data today) = some (some 0) := by
  have hcomp : calculate_composite m.name (normalizedFor data today results) = (0, 0) := by
    unfold calculate_composite calculate_compositeW
    rw [hno]
    rfl
  have hi : i < data.models.length := by
    rcases List.get?_eq_some.mp hm with ⟨h, _⟩
    exact h
  have hsc : (scoredModels data today results).get? i =
      some (applyModelScore (normalizedFor data today results) (todayIdxOf data today)
        (date_is_new data today) m) := by
    rw [scoredModels_get?, discoveredData_get?_of_lt data today results i hi, hm]
    rfl
  have hamscores : (applyModelScore (normalizedFor data today results) (todayIdxOf data today)
      (date_is_new data today) m).scores.get? (todayIdxOf data today) = some (some 0) := by
    by_cases hb : data.dates.contains today = true
    · have hidx : todayIdxOf data today = data.dates.indexOf today := by
        unfold todayIdxOf
        rw [if_pos hb]
      have hnew : date_is_new data today = false := by
        unfold date_is_new
        rw [hb]
        rfl
      have hlt : todayIdxOf data today < m.scores.length := by
        rw [hidx, hal]
        exact List.indexOf_lt_length.mpr (List.elem_iff.mp hb)
      rw [hnew, applyModelScore_scores_set _ _ _ hlt, hcomp]
      exact get?_set_self _ _ _ hlt
    · have hidx : todayIdxOf data today = data.dates.length := by
        unfold todayIdxOf
        rw [if_neg hb]
      have hbf : data.dates.contains today = false := by
        revert hb
        cases data.dates.contains today <;> simp
      have hnew : date_is_new data today = true := by
        unfold date_is_new
        rw [hbf]
        rfl
      have hlen : m.scores.length = todayIdxOf data today := by
        rw [hidx, hal]
      rw [hnew, applyModelScore_scores_append _ _ _ hlen, hcomp]
      rw [← hlen]
      exact List.get?_concat_length _ _
  have hamcount : (applyModelScore (normalizedFor data today results) (todayIdxOf data today)
      (date_is_new data today) m).category_count = 0 := by
    rw [applyModelScore_count, hcomp]
  refine ⟨_, by rw [runPipeline_models, recompute_ranks_get? _ _ _ _ hsc], ?_, ?_⟩
  · rw [rankIf_count]
    exact hamcount
  · rw [rankIf_scores]
    exact hamscores

/-- C9 (amended): ranks are recomputed every run only for qualified
entities — each entity at or above the qualification threshold after
scoring receives its 1-based position in the ranked order as its new rank —
while an entity below the threshold is left entirely untouched by the rank
update, so it retains the rank it had before the run (the scoring stage
never modifies the rank field of a loaded entity). -/
theorem c9_ranks_recomputed_only_for_qualified (data : TrsData) (today : String)
    (results : List (String × List (String × ℚ))) :
    (∀ i m, (scoredModels data today results).get? i = some m →
        m.category_count < QUALIFICATION_MIN_CATEGORIES →
        (runPipeline data today results).models.get? i = some m) ∧
    (∀ i m, (scoredModels data today results).get? i = some m →
        QUALIFICATION_MIN_CATEGORIES ≤ m.category_count →
        (runPipeline data today results).models.get? i =
          some { m with rank := (rankedOrder (scoredModels data today results)
            (todayIdxOf data today)).findIdx (fun q => q.1 == i) + 1 }) ∧
    (∀ i m, data.models.get? i = some m →
        ((scoredModels data today results).get? i).map (·.rank) = some m.rank) := by
  refine ⟨?_, ?_, ?_⟩
  · intro i m hm hlt
    rw [runPipeline_models, recompute_ranks_get? _ _ _ _ hm,
      if_neg (Nat.not_le.mpr hlt)]
  · intro i m hm hge
    rw [runPipeline_models, recompute_ranks_get? _ _ _ _ hm, if_pos hge]
  · intro i m hm
    have hi : i < data.models.length := by
      rcases List.get?_eq_some.mp hm with ⟨h, _⟩
      exact h
    rw [scoredModels_get?, discoveredData_get?_of_lt data today results i hi, hm,
      Option.map_some', Option.map_some', applyModelScore_rank]

end TrainingRun

namespace TrainingRun

attribute [local semireducible] Rat.add Rat.mul Rat.inv Rat.sub

/-- C6 (counterexample): in a run where the rostered entity has no present
normalized value in any category, the engine still writes the numeric score
`0.0` into today's slot — the slot does not stay absent. -/
theorem c6_counterexample_absence_becomes_zero :
    available_weights WEIGHTS "Alpha Test" (normalizedFor dC9 "2026-02-02" rC9) = [] ∧
    (runPipeline dC9 "2026-02-02" rC9).dates = ["2026-02-01", "2026-02-02"] ∧
    ((runPipeline dC9 "2026-02-02" rC9).models.map (·.scores)) = [[some 50, some 0]] ∧
    (some (0 : ℚ) : Option ℚ) ≠ none :=
  ⟨by decide, by decide, by decide, by decide⟩

/-- C6 (witness): the amended statement instantiated on the concrete no-data
run: count 0 and a `0.0` slot at today's index. -/
theorem c6_no_data_witness :
    ((runPipeline dC9 "2026-02-02" rC9).models.get? 0).map (·.category_count) = some 0 ∧
    ((runPipeline dC9 "2026-02-02" rC9).models.get? 0).map
        (fun mm => mm.scores.get? (todayIdxOf dC9 "2026-02-02")) = some (some (some 0)) := by
  obtain ⟨m', h1, h2, h3⟩ :=
    c6_no_data_records_zero dC9 "2026-02-02" rC9 0 mC9 rfl (by decide) (by decide)
  rw [h1]
  exact ⟨by rw [Option.map_some', h2], by rw [Option.map_some', h3]⟩

/-- C9 (counterexample): the disqualified entity (0 categories today) ends
the run still holding its previous rank 3 — not a sentinel "not ranked"
value (new entities are created with sentinel 999). -/
theorem c9_counterexample_stale_rank_retained :
    dC9.models.map (·.rank) = [3] ∧
    ((runPipeline dC9 "2026-02-02" rC9).models.map (·.category_count)) = [0] ∧
    QUALIFICATION_MIN_CATEGORIES = 1 ∧
    ((runPipeline dC9 "2026-02-02" rC9).models.map (·.rank)) = [3] ∧
    (3 : ℕ) ≠ 999 :=
  ⟨by decide, by decide, rfl, by decide, by decide⟩

/-- C9 (witness): the amended statement instantiated on the concrete run:
the scored-but-disqualified model passes through the rank update untouched. -/
theorem c9_rank_update_witness :
    (runPipeline dC9 "2026-02-02" rC9).models.get? 0 = some amC9 :=
  (c9_ranks_recomputed_only_for_qualified dC9 "2026-02-02" rC9).1 0 amC9
    (by decide) (by decide)

/-- C7 (witness): re-running an already-present date on a concrete one-model
ledger keeps the axis and overwrites slot 0. -/
theorem c7_same_day_witness :
    (runPipeline dW7 "2026-02-01" []).dates = dW7.dates ∧
    ((runPipeline dW7 "2026-02-01" []).models.get? 0).map (·.scores) =
      some (mW7.scores.set (dW7.dates.indexOf "2026-02-01")
        (some (calculate_composite mW7.name (normalizedFor dW7 "2026-02-01" [])).1)) := by
  have h := c7_same_day_run_overwrites dW7 "2026-02-01" [] (by decide) (by decide)
  exact ⟨h.1, h.2 0 mW7 rfl⟩

end TrainingRun
